import Mathlib

/-!
Shallow embedding of the pgf library (src/pgf/stats.py, src/pgf/plot.py,
src/pgf/clean.py) and proofs about its statistical core.

Numeric cells are modelled as exact rationals (Python floats behave as reals
on the inputs considered here); square roots, logarithms and cube roots are
taken in the real numbers.  The pandas container is an external collaborator;
its contracts (quantile by linear interpolation, mean and standard deviation
with a selectable divisor, missing-value handling) are modelled from the
specification of those collaborators.  A Python ValueError or KeyError is
modelled as the error branch of Option or Except.
-/

namespace PGF

/-- One cell of a tabular frame: a genuine missing marker, a numeric value,
a string, or a boolean. -/
inductive Cell (α : Type) where
  | missing : Cell α
  | num (v : α) : Cell α
  | str (s : String) : Cell α
  | bool (b : Bool) : Cell α
  deriving DecidableEq

/-- A tabular frame: an ordered association list from column name to the
column cells.  All columns of a well-formed frame share one row count. -/
abbrev Frame (α : Type) := List (String × List (Cell α))

/-- A pandas Series of floats: each entry is a value or the NaN marker. -/
abbrev NumSeries := List (Option ℚ)

/-- Modelled from pandas Series.dropna: the non-missing values in order. -/
def dropna (s : NumSeries) : List ℚ :=
  s.filterMap id

/-- The numeric values of a frame column, missing and non-numeric cells
skipped (pandas mean, std and quantile skip NaN). -/
def cellNums {α : Type} (cells : List (Cell α)) : List α :=
  cells.filterMap (fun c => match c with | .num v => some v | _ => none)

/-- Ascending sort of the sample. -/
def sortedVals (xs : List ℚ) : List ℚ :=
  xs.insertionSort (· ≤ ·)

/-- Modelled from the spec: pandas Series.quantile with the default linear
interpolation method; for a sorted sequence of length n the p-th quantile is
interpolated between the floor and ceil index of p*(n-1). -/
def quantile (xs : List ℚ) (p : ℚ) : ℚ :=
  let s := sortedVals xs
  let h := p * ((s.length : ℚ) - 1)
  let lo := s.getD (⌊h⌋).toNat 0
  let hi := s.getD (⌈h⌉).toNat 0
  lo + (h - (⌊h⌋ : ℚ)) * (hi - lo)

/-- Modelled from the spec: pandas Series.mean over the non-missing values. -/
def meanQ (xs : List ℚ) : ℚ :=
  xs.sum / (xs.length : ℚ)

/-- Modelled from the spec: pandas Series.var with divisor n - ddof. -/
def varQ (xs : List ℚ) (ddof : ℕ) : ℚ :=
  ((xs.map (fun x => (x - meanQ xs) ^ 2)).sum) / ((xs.length : ℚ) - (ddof : ℚ))

/-- Maximum of a sample (pandas Series.max). -/
def listMax : List ℚ → ℚ
  | [] => 0
  | x :: xs => xs.foldl max x

/-- Minimum of a sample (pandas Series.min). -/
def listMin : List ℚ → ℚ
  | [] => 0
  | x :: xs => xs.foldl min x

/-- Embedding of pgf.stats.iqr_bounds: lower and upper outlier cutoffs using
the IQR method.  pandas quantile excludes missing values, hence dropna. -/
def iqr_bounds (series : NumSeries) (k : ℚ) : ℚ × ℚ :=
  let q1 := quantile (dropna series) (1/4)
  let q3 := quantile (dropna series) (3/4)
  let iqr := q3 - q1
  let lower := q1 - k * iqr
  let upper := q3 + k * iqr
  (lower, upper)

/-- The record returned by histogram_bin_counts: the four recommendations. -/
structure BinCounts where
  square_root : ℤ
  sturges : ℤ
  scott : ℤ
  freedman_diaconis : ℤ
  deriving DecidableEq

/-- Embedding of the inner helper named _positive in histogram_bin_counts:
max(1, ceil(value)). -/
noncomputable def positiveCeil (value : ℝ) : ℤ :=
  max 1 ⌈value⌉

open Classical in
/-- Embedding of pgf.plot.histogram_bin_counts: recommended bin counts from
the square-root, Sturges, Scott and Freedman-Diaconis rules.  The none branch
models the ValueError raised when no non-missing value exists. -/
noncomputable def histogram_bin_counts (series : NumSeries) : Option BinCounts :=
  let clean := dropna series
  let n := clean.length
  if n = 0 then none else
  let square_root := positiveCeil (Real.sqrt (n : ℝ))
  let sturges := positiveCeil (1 + Real.logb 2 (n : ℝ))
  let dataRange : ℚ := listMax clean - listMin clean
  if dataRange = 0 then some ⟨square_root, sturges, 1, 1⟩ else
  let std : ℝ := Real.sqrt ((varQ clean 1 : ℚ) : ℝ)
  let scottWidth : ℝ := 3.5 * std / (n : ℝ) ^ ((1 : ℝ) / 3)
  let scott : ℤ := if 0 < scottWidth then positiveCeil ((dataRange : ℝ) / scottWidth) else 1
  let q1 := quantile clean (1/4)
  let q3 := quantile clean (3/4)
  let iqr : ℚ := q3 - q1
  let fdWidth : ℝ := 2 * (iqr : ℝ) / (n : ℝ) ^ ((1 : ℝ) / 3)
  let fd : ℤ := if 0 < fdWidth then positiveCeil ((dataRange : ℝ) / fdWidth) else 1
  some ⟨square_root, sturges, scott, fd⟩

/-- Embedding of the empirical CDF computation of pgf.plot.cdf_plot: the
(sorted value, cumulative probability) pairs handed to the step renderer.
The rendering sink is an opaque collaborator and is elided; none models the
ValueError raised when no non-missing value exists. -/
def cdf_plot (series : NumSeries) : Option (List (ℚ × ℚ)) :=
  let clean := dropna series
  if clean.isEmpty then none else
  let values := sortedVals clean
  let n := values.length
  let cumulative := (List.range n).map (fun i : ℕ => ((i : ℚ) + 1) / (n : ℚ))
  some (values.zip cumulative)

/-- Errors of the plotting layer: a Python ValueError or TypeError. -/
inductive PlotError where
  | valueError (msg : String)
  | typeError (msg : String)
  deriving DecidableEq

/-- Truncation toward zero: the behavior of the Python int() conversion on a
finite float. -/
def truncQ (q : ℚ) : ℤ :=
  if 0 ≤ q then ⌊q⌋ else ⌈q⌉

/-- Embedding of the validation logic of pgf.plot.histogram_plot: on success
it returns the cleaned sample and the bin count handed to the rendering sink.
A numeric bins argument never reaches the TypeError branch of the source,
because int() on a finite float always succeeds (truncating toward zero). -/
def histogram_plot (series : NumSeries) (bins : ℚ) : Except PlotError (List ℚ × ℤ) :=
  let clean := dropna series
  if clean.isEmpty then
    .error (.valueError "histogram_plot requires at least one non-null observation")
  else
    let bin_count := truncQ bins
    if bin_count < 1 then .error (.valueError "bins must be greater than zero")
    else .ok (clean, bin_count)

/-! Frame helpers (pandas DataFrame collaborator, modelled from the spec) -/

/-- Does the frame have a column of this name. -/
def hasCol {α : Type} (df : Frame α) (name : String) : Bool :=
  df.any (fun c => c.1 == name)

/-- The cells of the named column, none when the column is absent (a pandas
KeyError). -/
def colCells {α : Type} (df : Frame α) (name : String) : Option (List (Cell α)) :=
  (df.find? (fun c => c.1 == name)).map (·.2)

/-- The cells of the named column, defaulting to the empty column. -/
def colCellsD {α : Type} (df : Frame α) (name : String) : List (Cell α) :=
  (colCells df name).getD []

/-- Modelled from the spec: pandas column assignment df[name] = cells, which
replaces an existing column in place and otherwise appends a new column at
the end. -/
def setCol {α : Type} (df : Frame α) (name : String) (cells : List (Cell α)) : Frame α :=
  if hasCol df name then
    df.map (fun c => if c.1 == name then (name, cells) else c)
  else df ++ [(name, cells)]

/-- Row count of a frame (pandas len(df)); all columns of a well-formed frame
share it. -/
def nRows {α : Type} : Frame α → ℕ
  | [] => 0
  | c :: _ => c.2.length

/-- Modelled from the spec: pandas Series.mean of a frame column, skipping
missing cells. -/
noncomputable def colMean (cells : List (Cell ℝ)) : ℝ :=
  (cellNums cells).sum / ((cellNums cells).length : ℝ)

/-- Modelled from the spec: pandas Series.std with ddof = 0, the population
standard deviation (divisor N, not N-1), skipping missing cells. -/
noncomputable def colStdPop (cells : List (Cell ℝ)) : ℝ :=
  Real.sqrt (((cellNums cells).map (fun x => (x - colMean cells) ^ 2)).sum
    / ((cellNums cells).length : ℝ))

open Classical in
/-- The derived z-score column: (value - mean) / std per numeric cell, and
missing (NaN) for a missing cell.  When the standard deviation is zero,
every numeric value of the column equals the mean, so the source divides
0.0 by 0.0 and the IEEE quotient is NaN for every numeric row; the zero-std
branch therefore yields the missing marker, the NaN z column the spec
mandates at zero standard deviation. -/
noncomputable def zScoreCells (cells : List (Cell ℝ)) : List (Cell ℝ) :=
  cells.map (fun c => match c with
    | Cell.num v =>
        if colStdPop cells = 0 then Cell.missing
        else Cell.num ((v - colMean cells) / colStdPop cells)
    | _ => Cell.missing)

open Classical in
/-- The derived outlier flag column: abs(z-score) > z per row; comparing a
missing z-score (NaN) with the threshold yields False, as in pandas. -/
noncomputable def outlierFlagCells (cells : List (Cell ℝ)) (z : ℝ) : List (Cell ℝ) :=
  (zScoreCells cells).map (fun c => match c with
    | Cell.num zv => Cell.bool (if z < |zv| then true else false)
    | _ => Cell.bool false)

/-- Embedding of pgf.clean.add_zscore_outlier_flag: a copy of the frame with
a z-score column and an outlier flag column derived from the target column.
none models the KeyError raised when the column does not exist. -/
noncomputable def add_zscore_outlier_flag (df : Frame ℝ) (col : String) (z : ℝ) :
    Option (Frame ℝ) :=
  match colCells df col with
  | none => none
  | some cells =>
      some (setCol (setCol df (col ++ "_z") (zScoreCells cells))
        (col ++ "_is_outlier") (outlierFlagCells cells z))

/-! Column-name normalization (pgf.clean.fix_col_names) -/

/-- The word characters of the regex class backslash-w, at the ASCII level
used by every column name in this repository. -/
def isWordChar (c : Char) : Bool :=
  c.isAlphanum || c == '_'

/-- The whitespace stripped by the Python str.strip method. -/
def isSpaceChar (c : Char) : Bool :=
  c == ' ' || c == '\t' || c == '\n' || c == '\r' || c == '\x0B' || c == '\x0C' 

/-- Strip leading and trailing whitespace (Python str.strip). -/
def trimChars (cs : List Char) : List Char :=
  ((cs.dropWhile isSpaceChar).reverse.dropWhile isSpaceChar).reverse

/-- Replace every maximal run of one-or-more non-word characters with a
single underscore (the regex replacement in fix_col_names).  The flag records
whether the previous character belonged to such a run. -/
def squashRuns : List Char → Bool → List Char
  | [], _ => []
  | c :: cs, inRun =>
    if isWordChar c then c :: squashRuns cs false
    else if inRun then squashRuns cs true
    else '_' :: squashRuns cs true

/-- The column-name rewrite of fix_col_names: strip, replace runs of
non-word characters with one underscore, lowercase. -/
def fixName (s : String) : String :=
  String.mk ((squashRuns (trimChars s.data) false).map Char.toLower)

/-- Embedding of pgf.clean.fix_col_names: a copy of the frame with every
column name rewritten by fixName; the data are untouched. -/
def fix_col_names {α : Type} (df : Frame α) : Frame α :=
  df.map (fun c => (fixName c.1, c.2))

/-- Is this cell counted as missing by null_percentage: a genuine missing
marker always, and a string that strips to empty when the flag is set. -/
def isNullCell {α : Type} (includeEmptyStrings : Bool) : Cell α → Bool
  | Cell.missing => true
  | Cell.str s => includeEmptyStrings && (trimChars s.data).isEmpty
  | _ => false

/-- Embedding of pgf.clean.null_percentage: the percentage of missing rows
per column, 0 for every column of an empty frame. -/
def null_percentage {α : Type} (df : Frame α) (includeEmptyStrings : Bool) :
    List (String × ℚ) :=
  if nRows df = 0 then df.map (fun c => (c.1, 0))
  else df.map (fun c =>
    (c.1, ((c.2.countP (isNullCell includeEmptyStrings) : ℚ) / (nRows df : ℚ)) * 100))

/-! Box plot data preparation (pgf.plot.box_plot) -/

/-- Is the column of numeric dtype: every cell a number or a missing marker
(pandas stores such a column as float64, which select_dtypes keeps; strings
and booleans make the dtype non-numeric for np.number). -/
def isNumericCol {α : Type} (cells : List (Cell α)) : Bool :=
  cells.all (fun c => match c with
    | Cell.num _ => true
    | Cell.missing => true
    | _ => false)

/-- The names of the numeric columns, in frame order (select_dtypes). -/
def numericColNames {α : Type} (df : Frame α) : List String :=
  (df.filter (fun c => isNumericCol c.2)).map (·.1)

/-- The numeric value of the cell at a row index, none when missing. -/
def cellNumAt {α : Type} (cells : List (Cell α)) (i : ℕ) : Option α :=
  match cells.getD i Cell.missing with
  | Cell.num v => some v
  | _ => none

/-- A printable label for a group key (Python str applied to the key). -/
def cellLabel : Cell ℚ → String
  | Cell.num v => toString v
  | Cell.str s => s
  | Cell.bool b => toString b
  | Cell.missing => "nan"

/-- Embedding of the data preparation of pgf.plot.box_plot: the grouped,
missing-free samples and their labels handed to the box renderer.  Group
keys are deduplicated with missing keys dropped, as pandas groupby does;
their order here is not the sorted order pandas uses, and no claim depends
on group order.  The rendering sink is elided. -/
def box_plot (df : Frame ℚ) (value_columns : Option (List String))
    (segment_on : Option String) : Except PlotError (List (List ℚ) × List String) :=
  let numeric0 := numericColNames df
  let missingCols := match value_columns with
    | some vcs => vcs.filter (fun v => !(hasCol df v))
    | none => []
  if !missingCols.isEmpty then .error (.valueError "Columns not in DataFrame")
  else
    let numeric1 := match value_columns with
      | some vcs => vcs.filter (fun v => numeric0.contains v)
      | none => numeric0
    match segment_on with
    | some seg =>
      if !(hasCol df seg) then .error (.valueError "Column not found in DataFrame")
      else
        let numericCols := numeric1.filter (fun c => c != seg)
        if numericCols.isEmpty then
          .error (.valueError "box_plot requires at least one numeric column")
        else
          let segCells := colCellsD df seg
          let keys := (segCells.filter (fun c => c != Cell.missing)).dedup
          let groups := keys.map (fun k =>
            (k, ((List.range segCells.length).filter
                  (fun i => segCells.getD i Cell.missing == k)).flatMap
                (fun i => numericCols.filterMap
                  (fun name => cellNumAt (colCellsD df name) i))))
          let kept := groups.filter (fun g => !g.2.isEmpty)
          if kept.isEmpty then
            .error (.valueError "box_plot requires non-empty numeric data to plot")
          else .ok (kept.map (·.2), kept.map (fun g => cellLabel g.1))
    | none =>
      if numeric1.isEmpty then
        .error (.valueError "box_plot requires at least one numeric column")
      else
        let pairs := numeric1.map (fun name => (name, cellNums (colCellsD df name)))
        let kept := pairs.filter (fun g => !g.2.isEmpty)
        if kept.isEmpty then
          .error (.valueError "box_plot requires non-empty numeric data to plot")
        else .ok (kept.map (·.2), kept.map (·.1))

/-! Concrete samples used by the spec's testable properties -/

/-- The series [1,2,3,4,5,6] of the iqr_bounds testable property. -/
def sample6 : NumSeries := [some 1, some 2, some 3, some 4, some 5, some 6]

/-- The values 1..100 of the histogram_bin_counts testable property. -/
def vals100 : List ℚ := [1, 2, 3, 4, 5, 6, 7, 8, 9, 10, 11, 12, 13, 14, 15, 16, 17, 18, 19, 20, 21, 22, 23, 24, 25, 26, 27, 28, 29, 30, 31, 32, 33, 34, 35, 36, 37, 38, 39, 40, 41, 42, 43, 44, 45, 46, 47, 48, 49, 50, 51, 52, 53, 54, 55, 56, 57, 58, 59, 60, 61, 62, 63, 64, 65, 66, 67, 68, 69, 70, 71, 72, 73, 74, 75, 76, 77, 78, 79, 80, 81, 82, 83, 84, 85, 86, 87, 88, 89, 90, 91, 92, 93, 94, 95, 96, 97, 98, 99, 100]

/-- The series range(1, 101). -/
def series100 : NumSeries := vals100.map some

/-- The zero-range series [5,5,5]. -/
def series555 : NumSeries := [some 5, some 5, some 5]

/-- A series with non-zero range but zero interquartile range. -/
def seriesIqr0 : NumSeries :=
  [some 0, some 5, some 5, some 5, some 5, some 5, some 5, some 5, some 5, some 0]

/-! Proofs -/

lemma dropna_sample6 : dropna sample6 = [1, 2, 3, 4, 5, 6] := by decide

lemma sortedVals_sample6 : sortedVals [1, 2, 3, 4, 5, 6] = [1, 2, 3, 4, 5, 6] := by decide

lemma quantile_sample6_q1 : quantile [1, 2, 3, 4, 5, 6] (1/4) = 9/4 := by
  simp only [quantile, sortedVals_sample6]
  norm_num [List.getD_cons_succ, List.getD_cons_zero]
  rw [show ⌈(5/4 : ℚ)⌉ = (2 : ℤ) from by norm_num [Int.ceil_eq_iff]]
  norm_num [show Int.toNat 2 = 2 from rfl, show Int.toNat 3 = 3 from rfl,
    show Int.toNat 4 = 4 from rfl, List.getElem_cons_succ, List.getElem_cons_zero]

lemma quantile_sample6_q3 : quantile [1, 2, 3, 4, 5, 6] (3/4) = 19/4 := by
  simp only [quantile, sortedVals_sample6]
  norm_num [List.getD_cons_succ, List.getD_cons_zero]
  rw [show ⌈(15/4 : ℚ)⌉ = (4 : ℤ) from by norm_num [Int.ceil_eq_iff]]
  norm_num [show Int.toNat 2 = 2 from rfl, show Int.toNat 3 = 3 from rfl,
    show Int.toNat 4 = 4 from rfl, List.getElem_cons_succ, List.getElem_cons_zero]

/-- C2: for every series and multiplier k, iqr_bounds returns the pair
(Q1 - k*IQR, Q3 + k*IQR) with linear-interpolation quartiles over the
non-missing values and IQR = Q3 - Q1; on [1,2,3,4,5,6] with the default
k = 1.5 it returns (-1.5, 8.5). -/
theorem iqr_bounds_spec :
    (∀ (series : NumSeries) (k : ℚ),
      iqr_bounds series k =
        (quantile (dropna series) (1/4)
            - k * (quantile (dropna series) (3/4) - quantile (dropna series) (1/4)),
         quantile (dropna series) (3/4)
            + k * (quantile (dropna series) (3/4) - quantile (dropna series) (1/4))))
    ∧ iqr_bounds sample6 (3/2) = (-(3/2), 17/2) := by
  constructor
  · intro series k; rfl
  · simp only [iqr_bounds, dropna_sample6, quantile_sample6_q1, quantile_sample6_q3]
    norm_num

lemma toLower_toLower (c : Char) : Char.toLower (Char.toLower c) = Char.toLower c := by
  unfold Char.toLower
  by_cases h : c.toNat ≥ 65 ∧ c.toNat ≤ 90
  · simp only [if_pos h]
    obtain ⟨h1, h2⟩ := h
    generalize c.toNat = n at h1 h2 ⊢
    interval_cases n <;> decide
  · simp only [if_neg h]

lemma isWordChar_toLower {c : Char} (h : isWordChar c = true) :
    isWordChar (Char.toLower c) = true := by
  unfold Char.toLower
  by_cases hu : c.toNat ≥ 65 ∧ c.toNat ≤ 90
  · simp only [if_pos hu]
    obtain ⟨h1, h2⟩ := hu
    generalize c.toNat = n at h1 h2 ⊢
    interval_cases n <;> decide
  · simpa only [if_neg hu] using h

lemma isWordChar_not_space {c : Char} (h : isWordChar c = true) :
    isSpaceChar c = false := by
  by_contra hs
  simp only [Bool.not_eq_false, isSpaceChar, Bool.or_eq_true, beq_iff_eq] at hs
  rcases hs with ((((hs | hs) | hs) | hs) | hs) | hs <;> subst hs <;>
    simp [isWordChar] at h

lemma squashRuns_all_word (cs : List Char) (b : Bool) :
    ∀ c ∈ squashRuns cs b, isWordChar c = true := by
  induction cs generalizing b with
  | nil => intro c hc; simp [squashRuns] at hc
  | cons x xs ih =>
    intro c hc
    by_cases hw : isWordChar x
    · simp only [squashRuns, if_pos hw, List.mem_cons] at hc
      rcases hc with rfl | hc
      · exact hw
      · exact ih false c hc
    · by_cases hb : b
      · simp only [squashRuns, if_neg hw, hb, if_pos trivial] at hc
        exact ih true c hc
      · simp only [squashRuns, if_neg hw, hb] at hc
        simp only [Bool.false_eq_true, if_false, List.mem_cons] at hc
        rcases hc with rfl | hc
        · decide
        · exact ih true c hc

lemma squashRuns_of_all_word {cs : List Char} (h : ∀ c ∈ cs, isWordChar c = true)
    (b : Bool) : squashRuns cs b = cs := by
  induction cs generalizing b with
  | nil => rfl
  | cons x xs ih =>
    have hx : isWordChar x = true := h x (List.mem_cons_self x xs)
    simp only [squashRuns, if_pos hx]
    rw [ih (fun c hc => h c (List.mem_cons_of_mem x hc))]

lemma dropWhile_of_all_false {p : Char → Bool} {cs : List Char}
    (h : ∀ c ∈ cs, p c = false) : cs.dropWhile p = cs := by
  cases cs with
  | nil => rfl
  | cons x xs =>
    rw [List.dropWhile_cons_of_neg]
    simp [h x (List.mem_cons_self x xs)]

lemma trimChars_of_all_word {cs : List Char} (h : ∀ c ∈ cs, isWordChar c = true) :
    trimChars cs = cs := by
  unfold trimChars
  rw [dropWhile_of_all_false (fun c hc => isWordChar_not_space (h c hc))]
  rw [dropWhile_of_all_false (fun c hc => isWordChar_not_space
    (h c (List.mem_reverse.mp hc)))]
  exact List.reverse_reverse cs

lemma fixName_idem (s : String) : fixName (fixName s) = fixName s := by
  unfold fixName
  have hword : ∀ c ∈ (squashRuns (trimChars s.data) false).map Char.toLower,
      isWordChar c = true := by
    intro c hc
    obtain ⟨d, hd, rfl⟩ := List.mem_map.mp hc
    exact isWordChar_toLower (squashRuns_all_word _ _ d hd)
  show String.mk _ = String.mk _
  congr 1
  rw [show (String.mk ((squashRuns (trimChars s.data) false).map Char.toLower)).data
      = (squashRuns (trimChars s.data) false).map Char.toLower from rfl]
  rw [trimChars_of_all_word hword, squashRuns_of_all_word hword]
  rw [List.map_map]
  exact List.map_congr_left (fun c _ => toLower_toLower c)

/-- C9: fix_col_names is idempotent: applying it twice yields the same frame
(same column names and data) as applying it once. -/
theorem fix_col_names_idempotent :
    ∀ (α : Type) (df : Frame α), fix_col_names (fix_col_names df) = fix_col_names df := by
  intro α df
  unfold fix_col_names
  rw [List.map_map]
  exact List.map_congr_left (fun c _ => by simp [Function.comp, fixName_idem])

/-- C6: fix_col_names returns a new frame with identical data whose column
names are trimmed, have each run of non-word characters replaced by one
underscore, and are lowercased; it is total on any string name; the names
[" Amount ", "User-Id", "Total$"] become ["amount", "user_id", "total_"].
The source never mutates its input frame; in this pure embedding the
original frame is unchanged by construction. -/
theorem fix_col_names_spec :
    (∀ (α : Type) (df : Frame α),
      fix_col_names df = df.map (fun c => (fixName c.1, c.2)) ∧
      (fix_col_names df).map (fun c => c.2) = df.map (fun c => c.2) ∧
      (fix_col_names df).map (fun c => c.1) = df.map (fun c => fixName c.1))
    ∧ [" Amount ", "User-Id", "Total$"].map fixName = ["amount", "user_id", "total_"] := by
  constructor
  · intro α df
    refine ⟨rfl, ?_, ?_⟩ <;> simp [fix_col_names]
  · decide

/-! Concrete frames of the null_percentage testable properties -/

/-- The frame with columns a = [1, None, 3] and b = [None, None, 5]. -/
def frameAB : Frame ℚ :=
  [("a", [Cell.num 1, Cell.missing, Cell.num 3]),
   ("b", [Cell.missing, Cell.missing, Cell.num 5])]

/-- The one-column frame of strings ["", "value", "  "]. -/
def frameBlank : Frame ℚ :=
  [("a", [Cell.str "", Cell.str "value", Cell.str "  "])]

/-- A frame with columns a and b and zero rows. -/
def frameEmpty : Frame ℚ := [("a", []), ("b", [])]

lemma null_percentage_eq {α : Type} (df : Frame α) (flag : Bool) :
    null_percentage df flag
      = df.map (fun c => (c.1,
          if nRows df = 0 then 0
          else ((c.2.countP (isNullCell flag) : ℚ) / (nRows df : ℚ)) * 100)) := by
  unfold null_percentage
  by_cases h : nRows df = 0 <;> simp [h]

/-- C5: null_percentage maps each column name to the percentage (between 0
and 100) of rows counted as missing, where a cell is missing iff it is a
genuine missing marker or, when the flag is set, a string that strips to
empty; a frame with zero rows yields 0 for every column; on the frames of
the testable properties it returns the expected percentages. -/
theorem null_percentage_spec :
    (∀ (α : Type) (flag : Bool) (c : Cell α),
      isNullCell flag c = true ↔
        (c = Cell.missing ∨ (flag = true ∧ ∃ s, c = Cell.str s ∧ trimChars s.data = [])))
    ∧ (∀ (α : Type) (df : Frame α) (flag : Bool),
        null_percentage df flag
          = df.map (fun c => (c.1,
              if nRows df = 0 then 0
              else ((c.2.countP (isNullCell flag) : ℚ) / (nRows df : ℚ)) * 100)) ∧
        (∀ p ∈ null_percentage df flag, 0 ≤ p.2) ∧
        ((∀ c ∈ df, c.2.length = nRows df) → ∀ p ∈ null_percentage df flag, p.2 ≤ 100))
    ∧ null_percentage frameAB true = [("a", 100/3), ("b", 200/3)]
    ∧ null_percentage frameBlank true = [("a", 200/3)]
    ∧ null_percentage frameBlank false = [("a", 0)]
    ∧ null_percentage frameEmpty true = [("a", 0), ("b", 0)] := by
  refine ⟨?_, ?_, ?_, ?_, ?_, ?_⟩
  · intro α flag c
    cases c with
    | missing => simp [isNullCell]
    | num v => simp [isNullCell]
    | str s =>
      simp only [isNullCell, Bool.and_eq_true, List.isEmpty_iff]
      constructor
      · rintro ⟨hf, ht⟩
        exact Or.inr ⟨hf, s, rfl, ht⟩
      · rintro (h | ⟨hf, t, ht, htrim⟩)
        · exact absurd h (by simp)
        · obtain rfl : s = t := by injection ht
          exact ⟨hf, htrim⟩
    | bool b => simp [isNullCell]
  · intro α df flag
    refine ⟨null_percentage_eq df flag, ?_, ?_⟩
    · intro p hp
      rw [null_percentage_eq df flag] at hp
      obtain ⟨c, _, rfl⟩ := List.mem_map.mp hp
      by_cases h : nRows df = 0 <;> simp [h] <;> positivity
    · intro huni p hp
      rw [null_percentage_eq df flag] at hp
      obtain ⟨c, hc, rfl⟩ := List.mem_map.mp hp
      by_cases h : nRows df = 0
      · simp [h]
      · have hn : 0 < (nRows df : ℚ) := by
          exact_mod_cast Nat.pos_of_ne_zero h
        have hcount : (c.2.countP (isNullCell flag) : ℚ) ≤ (nRows df : ℚ) := by
          have := List.countP_le_length (isNullCell flag) (l := c.2)
          rw [huni c hc] at this
          exact_mod_cast this
        simp only [h, if_false]
        calc ((c.2.countP (isNullCell flag) : ℚ) / (nRows df : ℚ)) * 100
            ≤ 1 * 100 := by
              have := (div_le_one hn).mpr hcount
              nlinarith
          _ = 100 := by norm_num
  · rw [null_percentage_eq]
    rw [show nRows frameAB = 3 from rfl]
    simp only [frameAB, List.map_cons, List.map_nil]
    rw [show ([Cell.num (1:ℚ), Cell.missing, Cell.num 3].countP (isNullCell true)) = 1
      from by decide]
    rw [show ([Cell.missing, Cell.missing, Cell.num (5:ℚ)].countP (isNullCell true)) = 2
      from by decide]
    norm_num
  · rw [null_percentage_eq]
    rw [show nRows frameBlank = 3 from rfl]
    simp only [frameBlank, List.map_cons, List.map_nil]
    rw [show ([Cell.str "", Cell.str "value", Cell.str "  "]
        : List (Cell ℚ)).countP (isNullCell true) = 2 from by decide]
    norm_num
  · rw [null_percentage_eq]
    rw [show nRows frameBlank = 3 from rfl]
    simp only [frameBlank, List.map_cons, List.map_nil]
    rw [show ([Cell.str "", Cell.str "value", Cell.str "  "]
        : List (Cell ℚ)).countP (isNullCell false) = 0 from by decide]
    norm_num
  · rw [null_percentage_eq]
    rfl

/-- C7 counterexample: a fractional bin count is not rejected: on the series
[1,2,3] with bins = 2.7 the source truncates int(2.7) = 2 and succeeds,
although the claim requires every non-integer bins argument to fail with a
validation error. -/
theorem histogram_plot_frac_bins_accepted :
    histogram_plot [some 1, some 2, some 3] (27/10) = .ok ([1, 2, 3], 2) := by
  have hd : dropna [some 1, some 2, some 3] = [1, 2, 3] := by decide
  have ht : truncQ (27/10) = 2 := by
    unfold truncQ
    rw [if_pos (by norm_num)]
    norm_num [Int.floor_eq_iff]
  simp only [histogram_plot, hd, ht]
  rfl

/-- C7 amended: with at least one non-missing observation, a numeric bins
argument is truncated toward zero as Python int() does; the call fails with
a validation error exactly when the truncated count is below 1, so 2.7 is
truncated to 2 bins rather than rejected while 0.7 truncates to 0 and is
rejected. -/
theorem histogram_plot_bins_validation :
    (∀ (series : NumSeries) (bins : ℚ), dropna series ≠ [] →
      (truncQ bins < 1 →
        histogram_plot series bins = .error (.valueError "bins must be greater than zero")) ∧
      (1 ≤ truncQ bins →
        histogram_plot series bins = .ok (dropna series, truncQ bins)))
    ∧ histogram_plot [some 1, some 2, some 3] (27/10) = .ok ([1, 2, 3], 2)
    ∧ histogram_plot [some 1, some 2, some 3] (7/10)
        = .error (.valueError "bins must be greater than zero") := by
  refine ⟨?_, ?_, ?_⟩
  · intro series bins hne
    have hempty : (dropna series).isEmpty = false := by
      simpa [List.isEmpty_iff] using hne
    constructor
    · intro hlt
      simp only [histogram_plot, hempty, Bool.false_eq_true, if_false, if_pos hlt]
    · intro hge
      have : ¬ truncQ bins < 1 := not_lt.mpr hge
      simp only [histogram_plot, hempty, Bool.false_eq_true, if_false, if_neg this]
  · have hd : dropna [some 1, some 2, some 3] = [1, 2, 3] := by decide
    have ht : truncQ (27/10) = 2 := by
      unfold truncQ
      rw [if_pos (by norm_num)]
      norm_num [Int.floor_eq_iff]
    simp only [histogram_plot, hd, ht]
    rfl
  · have hd : dropna [some 1, some 2, some 3] = [1, 2, 3] := by decide
    have ht : truncQ (7/10) = 0 := by
      unfold truncQ
      rw [if_pos (by norm_num)]
      norm_num [Int.floor_eq_iff]
    simp only [histogram_plot, hd, ht]
    rfl

/-- C3: the empirical CDF of cdf_plot sorts the non-missing values ascending
and gives the i-th (1-indexed) sorted value cumulative probability i/n; the
cumulative sequence is non-decreasing and ends exactly at 1; a series with
zero non-missing values fails with a validation error. -/
theorem cdf_plot_spec :
    ∀ (series : NumSeries),
      (dropna series = [] → cdf_plot series = none) ∧
      (dropna series ≠ [] →
        ∃ ps, cdf_plot series = some ps ∧
          ps.length = (dropna series).length ∧
          ps.map Prod.fst = sortedVals (dropna series) ∧
          List.Sorted (· ≤ ·) (ps.map Prod.fst) ∧
          (∀ i (h : i < ps.length),
            (ps.get ⟨i, h⟩).2 = ((i : ℚ) + 1) / ((dropna series).length : ℚ)) ∧
          List.Chain' (· ≤ ·) (ps.map Prod.snd) ∧
          (ps.map Prod.snd).getLast? = some 1) := by
  intro series
  constructor
  · intro h
    simp [cdf_plot, h]
  · intro hne
    have hempty : (dropna series).isEmpty = false := by
      simpa [List.isEmpty_iff] using hne
    have hps : cdf_plot series
        = some ((sortedVals (dropna series)).zip
            ((List.range (sortedVals (dropna series)).length).map
              (fun i : ℕ => ((i : ℚ) + 1) / ((sortedVals (dropna series)).length : ℚ)))) := by
      simp only [cdf_plot, hempty, Bool.false_eq_true, if_false]
    generalize hv : sortedVals (dropna series) = values at hps
    set n := values.length with hn
    set cumulative := (List.range n).map (fun i : ℕ => ((i : ℚ) + 1) / (n : ℚ)) with hcum
    have hlen : n = (dropna series).length := by
      rw [hn, ← hv, sortedVals]
      exact List.length_insertionSort _ _
    have hnpos : 0 < n := by
      rw [hlen]
      exact List.length_pos.mpr hne
    have hcumlen : cumulative.length = n := by simp [hcum]
    refine ⟨values.zip cumulative, hps, ?_, ?_, ?_, ?_, ?_, ?_⟩
    · rw [List.length_zip, hcumlen, ← hn, min_self, hlen]
    · rw [List.map_fst_zip _ _ (by rw [hcumlen])]
    · rw [List.map_fst_zip _ _ (by rw [hcumlen]), ← hv]
      exact List.sorted_insertionSort _ _
    · intro i h
      have hi : i < n := by
        rw [List.length_zip, hcumlen, ← hn, min_self] at h
        exact h
      rw [List.get_eq_getElem, List.getElem_zip]
      simp only [hcum, List.getElem_map, List.getElem_range, ← hlen]
    · rw [List.map_snd_zip _ _ (by rw [hcumlen, hn])]
      rw [List.chain'_iff_pairwise]
      refine List.Pairwise.map _ ?_ (List.pairwise_lt_range n)
      intro a b hab
      have hnq : (0 : ℚ) < (n : ℚ) := by exact_mod_cast hnpos
      have hc : (a : ℚ) ≤ (b : ℚ) := by exact_mod_cast hab.le
      gcongr
    · rw [List.map_snd_zip _ _ (by rw [hcumlen, hn])]
      rw [List.getLast?_eq_getElem?]
      have h1 : cumulative.length - 1 < cumulative.length := by
        rw [hcumlen]; omega
      rw [List.getElem?_eq_getElem h1]
      simp only [hcum, hcumlen]
      rw [List.getElem_map, List.getElem_range]
      have hle : (1 : ℕ) ≤ n := hnpos
      have hcast : ((n - 1 : ℕ) : ℚ) + 1 = (n : ℚ) := by
        push_cast [Nat.cast_sub hle]
        ring
      rw [hcast, div_self (by positivity)]

/-- The frame of the box_plot witness: a numeric column and a string column. -/
def dfW : Frame ℚ := [("a", [Cell.num 1]), ("s", [Cell.str "x"])]

lemma isNumericCol_of_mem_numericColNames {α : Type} {df : Frame α} {c : String}
    (hnodup : (df.map (fun x => x.1)).Nodup) (hc : c ∈ numericColNames df) :
    isNumericCol (colCellsD df c) = true := by
  unfold numericColNames at hc
  obtain ⟨p, hp, hpc⟩ := List.mem_map.mp hc
  have hpdf : p ∈ df := List.mem_of_mem_filter hp
  have hpnum : isNumericCol p.2 = true := (List.mem_filter.mp hp).2
  have hfind : ∃ q, df.find? (fun x => x.1 == c) = some q := by
    have : (df.find? (fun x => x.1 == c)).isSome = true := by
      rw [List.find?_isSome]
      exact ⟨p, hpdf, by simp [hpc]⟩
    exact Option.isSome_iff_exists.mp this
  obtain ⟨q, hq⟩ := hfind
  have hqdf : q ∈ df := List.mem_of_find?_eq_some hq
  have hqc : q.1 = c := by simpa using List.find?_some hq
  have hpq : p = q := List.inj_on_of_nodup_map hnodup hpdf hqdf (by rw [hpc, hqc])
  rw [colCellsD, colCells, hq]
  rw [← hpq]
  exact hpnum

lemma box_plot_ungrouped_eq (df : Frame ℚ) (vcs : List String)
    (hmiss : vcs.filter (fun v => !(hasCol df v)) = []) :
    box_plot df (some vcs) none =
      (if (vcs.filter (fun v => (numericColNames df).contains v)).isEmpty then
        Except.error (PlotError.valueError "box_plot requires at least one numeric column")
      else
        let pairs := (vcs.filter (fun v => (numericColNames df).contains v)).map
          (fun name => (name, cellNums (colCellsD df name)))
        let kept := pairs.filter (fun g => !g.2.isEmpty)
        if kept.isEmpty then
          Except.error (PlotError.valueError "box_plot requires non-empty numeric data to plot")
        else Except.ok (kept.map (fun g => g.2), kept.map (fun g => g.1))) := by
  simp only [box_plot, hmiss, List.isEmpty_nil, Bool.not_false, Bool.not_true,
    Bool.false_eq_true, if_false]

/-- C10: in box_plot, a value column that exists but is not numeric is
silently excluded from the plotted columns rather than raising an error;
with no segmentation, a validation error occurs exactly when no numeric
column remains after filtering or every remaining column is empty after
dropping missing values. -/
theorem box_plot_nonnumeric_excluded :
    ∀ (df : Frame ℚ) (vcs : List String) (c : String),
      (df.map (fun x => x.1)).Nodup →
      (∀ v ∈ vcs, hasCol df v = true) →
      c ∈ vcs →
      isNumericCol (colCellsD df c) = false →
      ((∀ data labels, box_plot df (some vcs) none = .ok (data, labels) → c ∉ labels) ∧
       ((∃ e, box_plot df (some vcs) none = .error e) ↔
         (vcs.filter (fun v => (numericColNames df).contains v) = [] ∨
          ∀ v ∈ vcs.filter (fun v => (numericColNames df).contains v),
            cellNums (colCellsD df v) = []))) := by
  intro df vcs c hnodup hall hcv hcn
  have hmiss : vcs.filter (fun v => !(hasCol df v)) = [] := by
    rw [List.filter_eq_nil_iff]
    intro v hv
    simp [hall v hv]
  have heq := box_plot_ungrouped_eq df vcs hmiss
  set numeric1 := vcs.filter (fun v => (numericColNames df).contains v) with hnum1
  have hcnum : c ∉ numeric1 := by
    intro hmem
    have hcontains : (numericColNames df).contains c = true := (List.mem_filter.mp hmem).2
    have hcmem : c ∈ numericColNames df := by
      simpa [List.contains, List.elem_iff] using hcontains
    rw [isNumericCol_of_mem_numericColNames hnodup hcmem] at hcn
    exact Bool.true_eq_false.mp hcn
  constructor
  · intro data labels hok hclab
    rw [heq] at hok
    by_cases h1 : numeric1.isEmpty
    · rw [if_pos h1] at hok
      exact Except.noConfusion hok
    · rw [if_neg h1] at hok
      set pairs := numeric1.map (fun name => (name, cellNums (colCellsD df name))) with hpairs
      set kept := pairs.filter (fun g => !g.2.isEmpty) with hkept
      by_cases h2 : kept.isEmpty
      · rw [if_pos h2] at hok
        exact Except.noConfusion hok
      · rw [if_neg h2] at hok
        have hlab : labels = kept.map (fun g => g.1) := by
          injection hok with hok2
          exact (congrArg Prod.snd hok2).symm
        rw [hlab] at hclab
        obtain ⟨g, hg, hgc⟩ := List.mem_map.mp hclab
        have hgp : g ∈ pairs := List.mem_of_mem_filter hg
        obtain ⟨name, hname, hgname⟩ := List.mem_map.mp hgp
        apply hcnum
        rw [← hgname] at hgc
        simp only at hgc
        rw [hgc] at hname
        exact hname
  · constructor
    · rintro ⟨e, he⟩
      rw [heq] at he
      by_cases h1 : numeric1.isEmpty
      · exact Or.inl (List.isEmpty_iff.mp h1)
      · rw [if_neg h1] at he
        set pairs := numeric1.map (fun name => (name, cellNums (colCellsD df name))) with hpairs
        set kept := pairs.filter (fun g => !g.2.isEmpty) with hkept
        by_cases h2 : kept.isEmpty
        · refine Or.inr ?_
          intro v hv
          have hkept_nil : kept = [] := List.isEmpty_iff.mp h2
          by_contra hne
          have hvp : (v, cellNums (colCellsD df v)) ∈ pairs := by
            rw [hpairs]
            exact List.mem_map.mpr ⟨v, hv, rfl⟩
          have : (v, cellNums (colCellsD df v)) ∈ kept := by
            rw [hkept]
            refine List.mem_filter.mpr ⟨hvp, ?_⟩
            simpa [List.isEmpty_iff] using hne
          rw [hkept_nil] at this
          exact List.not_mem_nil _ this
        · rw [if_neg h2] at he
          exact Except.noConfusion he
    · intro h
      rw [heq]
      rcases h with h | h
      · rw [if_pos (List.isEmpty_iff.mpr h)]
        exact ⟨_, rfl⟩
      · by_cases h1 : numeric1.isEmpty
        · rw [if_pos h1]
          exact ⟨_, rfl⟩
        · rw [if_neg h1]
          have hkept_nil : (numeric1.map
              (fun name => (name, cellNums (colCellsD df name)))).filter
                (fun g => !g.2.isEmpty) = [] := by
            rw [List.filter_eq_nil_iff]
            intro g hg
            obtain ⟨name, hname, rfl⟩ := List.mem_map.mp hg
            simp only [Bool.not_eq_true, Bool.not_eq_false]
            simpa [List.isEmpty_iff] using h name hname
          refine ⟨PlotError.valueError "box_plot requires non-empty numeric data to plot", ?_⟩
          simp [hkept_nil]

/-- C10 witness: on a frame with a numeric column a and a string column s,
requesting value columns [a, s] silently drops s and succeeds. -/
theorem box_plot_nonnumeric_excluded_witness :
    (∀ data labels, box_plot dfW (some ["a", "s"]) none = .ok (data, labels) →
      "s" ∉ labels) ∧
    ((∃ e, box_plot dfW (some ["a", "s"]) none = .error e) ↔
      (["a", "s"].filter (fun v => (numericColNames dfW).contains v) = [] ∨
       ∀ v ∈ ["a", "s"].filter (fun v => (numericColNames dfW).contains v),
         cellNums (colCellsD dfW v) = [])) :=
  box_plot_nonnumeric_excluded dfW ["a", "s"] "s" (by decide) (by decide) (by decide)
    (by decide)

/-! add_zscore_outlier_flag: frames for the counterexample and witnesses -/

/-- A frame that already has a column named x_z, which pandas assignment
overwrites in place. -/
noncomputable def dfZpre : Frame ℝ := [("x", [Cell.num 1]), ("x_z", [Cell.num 5])]

/-- A two-row frame with a constant numeric column. -/
noncomputable def dfVar : Frame ℝ := [("x", [Cell.num 2, Cell.num 2])]

/-- A two-row frame with a non-constant numeric column: mean 1, population
standard deviation 1. -/
noncomputable def dfTwo : Frame ℝ := [("x", [Cell.num 0, Cell.num 2])]

lemma setCol_fresh {α : Type} {df : Frame α} {name : String}
    (h : hasCol df name = false) (cells : List (Cell α)) :
    setCol df name cells = df ++ [(name, cells)] := by
  simp [setCol, h]

lemma hasCol_append {α : Type} (df df2 : Frame α) (name : String) :
    hasCol (df ++ df2) name = (hasCol df name || hasCol df2 name) := by
  simp [hasCol, List.any_append]

lemma zname_ne_flagname (col : String) : (col ++ "_z") ≠ (col ++ "_is_outlier") := by
  intro h
  have hd := congrArg String.data h
  rw [String.data_append, String.data_append] at hd
  have := List.append_cancel_left hd
  exact absurd this (by decide)

lemma setCol_ne_nil {α : Type} {df : Frame α} (hne : df ≠ []) (name : String)
    (cells : List (Cell α)) : setCol df name cells ≠ [] := by
  unfold setCol
  by_cases h : hasCol df name
  · simp only [h, if_true, ne_eq, List.map_eq_nil_iff]
    exact hne
  · simp [h]

lemma nRows_setCol {α : Type} {df : Frame α} {name : String} {cells2 : List (Cell α)}
    (hne : df ≠ []) (hlen : cells2.length = nRows df) :
    nRows (setCol df name cells2) = nRows df := by
  cases df with
  | nil => exact absurd rfl hne
  | cons c0 rest =>
    unfold setCol
    by_cases h : hasCol (c0 :: rest) name
    · simp only [h, if_true, List.map_cons]
      by_cases h0 : c0.1 == name
      · simp only [h0, if_true]
        exact hlen
      · simp only [h0, Bool.false_eq_true, if_false]
        rfl
    · simp only [h, Bool.false_eq_true, if_false, List.cons_append]
      rfl

lemma mem_setCol_of_ne {α : Type} {df : Frame α} {c : String × List (Cell α)}
    {name : String} (hc : c ∈ df) (hne : c.1 ≠ name) (cells2 : List (Cell α)) :
    c ∈ setCol df name cells2 := by
  unfold setCol
  by_cases h : hasCol df name
  · simp only [h, if_true]
    refine List.mem_map.mpr ⟨c, hc, ?_⟩
    simp [hne]
  · simp only [h, Bool.false_eq_true, if_false]
    exact List.mem_append_left _ hc

/-- C8: add_zscore_outlier_flag never changes the input columns it keeps (in
this pure embedding the caller frame is untouched by construction, matching
the df.copy() of the source); when the target column exists in a well-formed
frame, the returned frame has the same row count as the input, and every
input column whose name is not one of the two derived names appears
unchanged in the output. -/
theorem add_zscore_preserves_frame :
    ∀ (df : Frame ℝ) (col : String) (z : ℝ) (cells : List (Cell ℝ)),
      colCells df col = some cells →
      (∀ c ∈ df, c.2.length = nRows df) →
      ∃ out, add_zscore_outlier_flag df col z = some out ∧
        nRows out = nRows df ∧
        (∀ c ∈ df, c.1 ≠ col ++ "_z" → c.1 ≠ col ++ "_is_outlier" → c ∈ out) ∧
        (zScoreCells cells).length = cells.length ∧
        (outlierFlagCells cells z).length = cells.length := by
  intro df col z cells hfind huni
  obtain ⟨p, hp, hp2⟩ : ∃ p, df.find? (fun x => x.1 == col) = some p ∧ p.2 = cells := by
    unfold colCells at hfind
    cases hf : df.find? (fun x => x.1 == col) with
    | none => rw [hf] at hfind; exact Option.noConfusion hfind
    | some p =>
      rw [hf] at hfind
      exact ⟨p, rfl, by injection hfind⟩
  have hpdf : p ∈ df := List.mem_of_find?_eq_some hp
  have hlen_cells : cells.length = nRows df := by
    rw [← hp2]
    exact huni p hpdf
  have hdfne : df ≠ [] := by
    intro h
    subst h
    simp [List.find?] at hp
  have hzc_len : (zScoreCells cells).length = cells.length := List.length_map _ _
  have hfc_len : (outlierFlagCells cells z).length = (zScoreCells cells).length :=
    List.length_map _ _
  have hne1 : setCol df (col ++ "_z") (zScoreCells cells) ≠ [] := setCol_ne_nil hdfne _ _
  have h1 : nRows (setCol df (col ++ "_z") (zScoreCells cells)) = nRows df :=
    nRows_setCol hdfne (hzc_len.trans hlen_cells)
  refine ⟨setCol (setCol df (col ++ "_z") (zScoreCells cells))
    (col ++ "_is_outlier") (outlierFlagCells cells z), ?_, ?_, ?_, hzc_len,
    hfc_len.trans hzc_len⟩
  · simp only [add_zscore_outlier_flag, hfind]
  · rw [nRows_setCol hne1 (by rw [hfc_len, hzc_len, hlen_cells, h1]), h1]
  · intro c hc hne_z hne_f
    exact mem_setCol_of_ne (mem_setCol_of_ne hc hne_z _) hne_f _

/-- C8 witness: on the concrete frame with one column x of two rows, the
call succeeds, keeps the row count, and keeps the input column. -/
theorem add_zscore_preserves_frame_witness :
    ∃ out, add_zscore_outlier_flag dfVar "x" 3 = some out ∧
      nRows out = nRows dfVar ∧
      (∀ c ∈ dfVar, c.1 ≠ "x" ++ "_z" → c.1 ≠ "x" ++ "_is_outlier" → c ∈ out) ∧
      (zScoreCells [Cell.num 2, Cell.num 2]).length
        = ([Cell.num 2, Cell.num 2] : List (Cell ℝ)).length ∧
      (outlierFlagCells [Cell.num 2, Cell.num 2] 3).length
        = ([Cell.num 2, Cell.num 2] : List (Cell ℝ)).length :=
  add_zscore_preserves_frame dfVar "x" 3 [Cell.num 2, Cell.num 2] rfl
    (by intro c hc; simp only [dfVar, List.mem_cons, List.not_mem_nil, or_false] at hc;
        subst hc; rfl)

lemma colMean_single : colMean [Cell.num 1] = 1 := by
  simp [colMean, cellNums]

lemma colStdPop_single : colStdPop [Cell.num 1] = 0 := by
  simp [colStdPop, colMean_single, cellNums]

lemma zScoreCells_single : zScoreCells [Cell.num 1] = [Cell.missing] := by
  simp [zScoreCells, colStdPop_single]

/-- C4 counterexample: on a frame that already has a column named x_z,
pandas column assignment overwrites that column in place, so the result is
not the input frame plus two derived columns: the original x_z column is
gone and only one column was added. -/
theorem add_zscore_overwrite_counterexample :
    ∃ out, add_zscore_outlier_flag dfZpre "x" 3 = some out ∧
      out.length = 3 ∧ dfZpre.length = 2 ∧
      ("x_z", [Cell.num (5 : ℝ)]) ∈ dfZpre ∧
      ("x_z", [Cell.num (5 : ℝ)]) ∉ out ∧
      (∀ extra, out ≠ dfZpre ++ extra) := by
  have h5 : ([Cell.missing] : List (Cell ℝ)) ≠ [Cell.num (5:ℝ)] := by
    intro h
    have h2 : (Cell.missing : Cell ℝ) = Cell.num (5:ℝ) := by injection h
    exact Cell.noConfusion h2
  refine ⟨[("x", [Cell.num 1]), ("x_z", zScoreCells [Cell.num 1]),
    ("x_is_outlier", outlierFlagCells [Cell.num 1] 3)], rfl, rfl, rfl, ?_, ?_, ?_⟩
  · simp [dfZpre]
  · rw [zScoreCells_single]
    intro hmem
    simp only [List.mem_cons, List.not_mem_nil, or_false, Prod.mk.injEq] at hmem
    rcases hmem with ⟨h, _⟩ | ⟨_, h⟩ | ⟨h, _⟩
    · exact absurd h (by decide)
    · exact h5 h.symm
    · exact absurd h (by decide)
  · intro extra heq
    rw [zScoreCells_single] at heq
    simp only [dfZpre, List.cons_append, List.cons.injEq, Prod.mk.injEq] at heq
    have hc : (Cell.missing : Cell ℝ) = Cell.num (5 : ℝ) := heq.2.1.2.1
    exact Cell.noConfusion hc

open Classical in
/-- C4 amended: when the target column exists and the two derived names are
not already present, add_zscore_outlier_flag returns the input frame plus
the two derived columns (pandas assignment would otherwise overwrite an
existing column of the same name in place).  When the population standard
deviation (divisor N, not N-1) is non-zero, the z column holds
(value - mean) / std for every numeric row and the flag column holds
abs(z-score) > z; when it is zero, the z column is NaN for every numeric
row and the flag is False, the IEEE NaN semantics the spec mandates.  On
the constant two-row frame the z scores are NaN with no outliers, and on
the frame [0, 2] with threshold 0.5 the z scores are -1 and 1 and both rows
are flagged. -/
theorem add_zscore_outlier_flag_spec :
    (∀ (df : Frame ℝ) (col : String) (z : ℝ) (cells : List (Cell ℝ)),
      colCells df col = some cells →
      hasCol df (col ++ "_z") = false →
      hasCol df (col ++ "_is_outlier") = false →
      add_zscore_outlier_flag df col z
        = some (df ++ [(col ++ "_z", zScoreCells cells),
                       (col ++ "_is_outlier", outlierFlagCells cells z)]))
    ∧ (∀ (cells : List (Cell ℝ)) (i : ℕ) (v : ℝ),
        cells[i]? = some (Cell.num v) → colStdPop cells ≠ 0 →
        (zScoreCells cells)[i]? = some (Cell.num ((v - colMean cells) / colStdPop cells)))
    ∧ (∀ (cells : List (Cell ℝ)) (i : ℕ) (v : ℝ),
        cells[i]? = some (Cell.num v) → colStdPop cells = 0 →
        (zScoreCells cells)[i]? = some Cell.missing)
    ∧ (∀ (cells : List (Cell ℝ)) (z : ℝ) (i : ℕ) (v : ℝ),
        cells[i]? = some (Cell.num v) → colStdPop cells ≠ 0 →
        (outlierFlagCells cells z)[i]?
          = some (Cell.bool
              (if z < |(v - colMean cells) / colStdPop cells| then true else false)))
    ∧ (∀ (cells : List (Cell ℝ)) (z : ℝ) (i : ℕ) (v : ℝ),
        cells[i]? = some (Cell.num v) → colStdPop cells = 0 →
        (outlierFlagCells cells z)[i]? = some (Cell.bool false))
    ∧ (∀ cells : List (Cell ℝ), colStdPop cells ^ 2
        = ((cellNums cells).map (fun x => (x - colMean cells) ^ 2)).sum
          / ((cellNums cells).length : ℝ))
    ∧ add_zscore_outlier_flag dfVar "x" 3
        = some [("x", [Cell.num 2, Cell.num 2]),
                ("x_z", [Cell.missing, Cell.missing]),
                ("x_is_outlier", [Cell.bool false, Cell.bool false])]
    ∧ add_zscore_outlier_flag dfTwo "x" (1/2)
        = some [("x", [Cell.num 0, Cell.num 2]),
                ("x_z", [Cell.num (-1), Cell.num 1]),
                ("x_is_outlier", [Cell.bool true, Cell.bool true])] := by
  have hz_of_mem : ∀ (cells : List (Cell ℝ)) (i : ℕ) (v : ℝ),
      cells[i]? = some (Cell.num v) → colStdPop cells ≠ 0 →
      (zScoreCells cells)[i]?
        = some (Cell.num ((v - colMean cells) / colStdPop cells)) := by
    intro cells i v hv hstd
    rw [zScoreCells, List.getElem?_map, hv]
    simp only [Option.map_some', if_neg hstd]
  have hz_of_mem0 : ∀ (cells : List (Cell ℝ)) (i : ℕ) (v : ℝ),
      cells[i]? = some (Cell.num v) → colStdPop cells = 0 →
      (zScoreCells cells)[i]? = some Cell.missing := by
    intro cells i v hv hstd
    rw [zScoreCells, List.getElem?_map, hv]
    simp only [Option.map_some', if_pos hstd]
  refine ⟨?_, hz_of_mem, hz_of_mem0, ?_, ?_, ?_, ?_, ?_⟩
  · intro df col z cells hfind hz hf
    simp only [add_zscore_outlier_flag, hfind]
    rw [setCol_fresh hz]
    have hf2 : hasCol (df ++ [(col ++ "_z", zScoreCells cells)]) (col ++ "_is_outlier")
        = false := by
      rw [hasCol_append, hf]
      simp only [hasCol, List.any_cons, List.any_nil, Bool.or_false, Bool.false_or]
      exact beq_eq_false_iff_ne.mpr (zname_ne_flagname col)
    rw [setCol_fresh hf2]
    rw [List.append_assoc]
    rfl
  · intro cells z i v hv hstd
    have hzv := hz_of_mem cells i v hv hstd
    rw [outlierFlagCells, List.getElem?_map, hzv]
    rfl
  · intro cells z i v hv hstd
    have hzv := hz_of_mem0 cells i v hv hstd
    rw [outlierFlagCells, List.getElem?_map, hzv]
    rfl
  · intro cells
    apply Real.sq_sqrt
    apply div_nonneg
    · apply List.sum_nonneg
      intro x hx
      obtain ⟨y, _, rfl⟩ := List.mem_map.mp hx
      positivity
    · positivity
  · have hmean : colMean [Cell.num 2, Cell.num 2] = 2 := by
      simp [colMean, cellNums]
    have hstd0 : colStdPop [Cell.num 2, Cell.num 2] = 0 := by
      simp [colStdPop, hmean, cellNums]
    have hzc : zScoreCells [Cell.num 2, Cell.num 2] = [Cell.missing, Cell.missing] := by
      simp [zScoreCells, hstd0]
    have hfc : outlierFlagCells [Cell.num 2, Cell.num 2] 3
        = [Cell.bool false, Cell.bool false] := by
      rw [outlierFlagCells, hzc]
      rfl
    have hstep : add_zscore_outlier_flag dfVar "x" 3
        = some (setCol (setCol dfVar ("x" ++ "_z")
            (zScoreCells [Cell.num 2, Cell.num 2]))
          ("x" ++ "_is_outlier") (outlierFlagCells [Cell.num 2, Cell.num 2] 3)) := rfl
    rw [hstep, hzc, hfc]
    rfl
  · have hmean2 : colMean [Cell.num 0, Cell.num 2] = 1 := by
      simp [colMean, cellNums]
    have hstd2 : colStdPop [Cell.num 0, Cell.num 2] = 1 := by
      rw [colStdPop, hmean2]
      rw [show ((cellNums [Cell.num (0:ℝ), Cell.num 2]).map
          (fun x => (x - 1) ^ 2)).sum / ((cellNums [Cell.num (0:ℝ), Cell.num 2]).length : ℝ)
          = 1 by simp [cellNums]; norm_num]
      exact Real.sqrt_one
    have hzc2 : zScoreCells [Cell.num 0, Cell.num 2] = [Cell.num (-1), Cell.num 1] := by
      rw [zScoreCells]
      simp only [List.map_cons, List.map_nil, hstd2, hmean2]
      norm_num
    have hfc2 : outlierFlagCells [Cell.num 0, Cell.num 2] (1/2)
        = [Cell.bool true, Cell.bool true] := by
      rw [outlierFlagCells, hzc2]
      simp only [List.map_cons, List.map_nil]
      norm_num
    have hstep2 : add_zscore_outlier_flag dfTwo "x" (1/2)
        = some (setCol (setCol dfTwo ("x" ++ "_z")
            (zScoreCells [Cell.num 0, Cell.num 2]))
          ("x" ++ "_is_outlier") (outlierFlagCells [Cell.num 0, Cell.num 2] (1/2))) := rfl
    rw [hstep2, hzc2, hfc2]
    rfl

/-! Helper lemmas for the histogram bin-count rules -/

lemma foldl_max_le_and_mem (xs : List ℚ) (a : ℚ) :
    a ≤ xs.foldl max a ∧ (∀ x ∈ xs, x ≤ xs.foldl max a) ∧
      (xs.foldl max a = a ∨ xs.foldl max a ∈ xs) := by
  induction xs generalizing a with
  | nil => exact ⟨le_refl a, by simp, Or.inl rfl⟩
  | cons y ys ih =>
    obtain ⟨h1, h2, h3⟩ := ih (max a y)
    refine ⟨le_trans (le_max_left a y) h1, ?_, ?_⟩
    · intro x hx
      rcases List.mem_cons.mp hx with rfl | hx
      · exact le_trans (le_max_right a x) h1
      · exact h2 x hx
    · rcases h3 with h3 | h3
      · rcases max_choice a y with hm | hm
        · exact Or.inl (by rw [List.foldl_cons, h3, hm])
        · exact Or.inr (by rw [List.foldl_cons, h3, hm]; exact List.mem_cons_self _ _)
      · exact Or.inr (List.mem_cons_of_mem y h3)

lemma foldl_min_le_and_mem (xs : List ℚ) (a : ℚ) :
    xs.foldl min a ≤ a ∧ (∀ x ∈ xs, xs.foldl min a ≤ x) ∧
      (xs.foldl min a = a ∨ xs.foldl min a ∈ xs) := by
  induction xs generalizing a with
  | nil => exact ⟨le_refl a, by simp, Or.inl rfl⟩
  | cons y ys ih =>
    obtain ⟨h1, h2, h3⟩ := ih (min a y)
    refine ⟨le_trans h1 (min_le_left a y), ?_, ?_⟩
    · intro x hx
      rcases List.mem_cons.mp hx with rfl | hx
      · exact le_trans h1 (min_le_right a x)
      · exact h2 x hx
    · rcases h3 with h3 | h3
      · rcases min_choice a y with hm | hm
        · exact Or.inl (by rw [List.foldl_cons, h3, hm])
        · exact Or.inr (by rw [List.foldl_cons, h3, hm]; exact List.mem_cons_self _ _)
      · exact Or.inr (List.mem_cons_of_mem y h3)

lemma listMax_mem {xs : List ℚ} (h : xs ≠ []) : listMax xs ∈ xs := by
  cases xs with
  | nil => exact absurd rfl h
  | cons x t =>
    rcases (foldl_max_le_and_mem t x).2.2 with h3 | h3
    · rw [listMax, h3]; exact List.mem_cons_self _ _
    · exact List.mem_cons_of_mem x h3

lemma listMin_mem {xs : List ℚ} (h : xs ≠ []) : listMin xs ∈ xs := by
  cases xs with
  | nil => exact absurd rfl h
  | cons x t =>
    rcases (foldl_min_le_and_mem t x).2.2 with h3 | h3
    · rw [listMin, h3]; exact List.mem_cons_self _ _
    · exact List.mem_cons_of_mem x h3

lemma le_listMax {xs : List ℚ} {y : ℚ} (hy : y ∈ xs) : y ≤ listMax xs := by
  cases xs with
  | nil => exact absurd hy (List.not_mem_nil y)
  | cons x t =>
    rcases List.mem_cons.mp hy with rfl | hy
    · exact (foldl_max_le_and_mem t y).1
    · exact (foldl_max_le_and_mem t x).2.1 y hy

lemma listMin_le {xs : List ℚ} {y : ℚ} (hy : y ∈ xs) : listMin xs ≤ y := by
  cases xs with
  | nil => exact absurd hy (List.not_mem_nil y)
  | cons x t =>
    rcases List.mem_cons.mp hy with rfl | hy
    · exact (foldl_min_le_and_mem t y).1
    · exact (foldl_min_le_and_mem t x).2.1 y hy

lemma two_le_length_of_ne {xs : List ℚ} {a b : ℚ} (ha : a ∈ xs) (hb : b ∈ xs)
    (hab : a ≠ b) : 2 ≤ xs.length := by
  match xs with
  | [] => exact absurd ha (List.not_mem_nil a)
  | [x] =>
    simp only [List.mem_cons, List.not_mem_nil, or_false] at ha hb
    exact absurd (ha.trans hb.symm) hab
  | x :: y :: t => simp only [List.length_cons]; omega

/-- When the data range is non-zero, the sample variance (divisor n-1) is
positive. -/
lemma varQ_pos_of_range_ne {xs : List ℚ} (hne : xs ≠ [])
    (hr : listMax xs - listMin xs ≠ 0) : 0 < varQ xs 1 := by
  have hmaxmem := listMax_mem hne
  have hminmem := listMin_mem hne
  have hmaxmin : listMin xs ≠ listMax xs := fun h => hr (by rw [h, sub_self])
  have hlen2 : 2 ≤ xs.length := two_le_length_of_ne hminmem hmaxmem hmaxmin
  have hmean : listMax xs ≠ meanQ xs ∨ listMin xs ≠ meanQ xs := by
    by_contra hcon
    push_neg at hcon
    exact hmaxmin (hcon.2.trans hcon.1.symm)
  have hterm : ∃ a ∈ xs, 0 < (a - meanQ xs) ^ 2 := by
    rcases hmean with h | h
    · exact ⟨listMax xs, hmaxmem, pow_two_pos_of_ne_zero (sub_ne_zero.mpr h)⟩
    · exact ⟨listMin xs, hminmem, pow_two_pos_of_ne_zero (sub_ne_zero.mpr h)⟩
  obtain ⟨a, ha, hapos⟩ := hterm
  have hsum : 0 < (xs.map (fun x => (x - meanQ xs) ^ 2)).sum := by
    have hle : (a - meanQ xs) ^ 2 ≤ (xs.map (fun x => (x - meanQ xs) ^ 2)).sum := by
      apply List.single_le_sum
      · intro x hx
        obtain ⟨y, _, rfl⟩ := List.mem_map.mp hx
        positivity
      · exact List.mem_map.mpr ⟨a, ha, rfl⟩
    linarith
  have hden : 0 < (xs.length : ℚ) - 1 := by
    have : (2 : ℚ) ≤ (xs.length : ℚ) := by exact_mod_cast hlen2
    linarith
  unfold varQ
  rw [Nat.cast_one]
  exact div_pos hsum hden

lemma positiveCeil_of_pos {x : ℝ} (hx : 0 < x) : positiveCeil x = ⌈x⌉ :=
  max_eq_right (Int.one_le_ceil_iff.mpr hx)

lemma one_le_positiveCeil (x : ℝ) : 1 ≤ positiveCeil x := le_max_left 1 _

open Classical in
lemma hbc_general :
    ∀ series : NumSeries, dropna series ≠ [] →
      ∃ c, histogram_bin_counts series = some c ∧
        c.square_root = ⌈Real.sqrt ((dropna series).length : ℝ)⌉ ∧
        c.sturges = ⌈1 + Real.logb 2 ((dropna series).length : ℝ)⌉ ∧
        1 ≤ c.square_root ∧ 1 ≤ c.sturges ∧ 1 ≤ c.scott ∧ 1 ≤ c.freedman_diaconis ∧
        (listMax (dropna series) - listMin (dropna series) = 0 →
          c.scott = 1 ∧ c.freedman_diaconis = 1) ∧
        (listMax (dropna series) - listMin (dropna series) ≠ 0 →
          (c.scott = ⌈((listMax (dropna series) - listMin (dropna series) : ℚ) : ℝ)
            / (3.5 * Real.sqrt ((varQ (dropna series) 1 : ℚ) : ℝ)
              / ((dropna series).length : ℝ) ^ ((1 : ℝ) / 3))⌉) ∧
          (0 < quantile (dropna series) (3/4) - quantile (dropna series) (1/4) →
            c.freedman_diaconis
              = ⌈((listMax (dropna series) - listMin (dropna series) : ℚ) : ℝ)
                / (2 * ((quantile (dropna series) (3/4)
                    - quantile (dropna series) (1/4) : ℚ) : ℝ)
                  / ((dropna series).length : ℝ) ^ ((1 : ℝ) / 3))⌉) ∧
          (quantile (dropna series) (3/4) - quantile (dropna series) (1/4) = 0 →
            c.freedman_diaconis = 1)) := by
  intro series hne
  have hn0 : ¬ (dropna series).length = 0 := by
    simpa [List.length_eq_zero] using hne
  have hn1 : 1 ≤ (dropna series).length := Nat.one_le_iff_ne_zero.mpr hn0
  have hnR : (1 : ℝ) ≤ ((dropna series).length : ℝ) := by exact_mod_cast hn1
  have hnpos : (0 : ℝ) < ((dropna series).length : ℝ) := by linarith
  have hsq1 : 1 ≤ ⌈Real.sqrt ((dropna series).length : ℝ)⌉ :=
    Int.one_le_ceil_iff.mpr (Real.sqrt_pos.mpr hnpos)
  have hst1 : 1 ≤ ⌈1 + Real.logb 2 ((dropna series).length : ℝ)⌉ := by
    apply Int.one_le_ceil_iff.mpr
    have := Real.logb_nonneg (b := 2) (by norm_num) hnR
    linarith
  simp only [histogram_bin_counts]
  rw [if_neg hn0]
  by_cases hr : listMax (dropna series) - listMin (dropna series) = 0
  · rw [if_pos hr]
    refine ⟨_, rfl, max_eq_right hsq1, max_eq_right hst1,
      one_le_positiveCeil _, one_le_positiveCeil _, le_refl 1, le_refl 1,
      fun _ => ⟨rfl, rfl⟩, fun h => absurd hr h⟩
  · rw [if_neg hr]
    have hvar : 0 < varQ (dropna series) 1 := varQ_pos_of_range_ne hne hr
    have hvarR : (0 : ℝ) < ((varQ (dropna series) 1 : ℚ) : ℝ) := by exact_mod_cast hvar
    have hstd : 0 < Real.sqrt ((varQ (dropna series) 1 : ℚ) : ℝ) :=
      Real.sqrt_pos.mpr hvarR
    have hcbrt : (0 : ℝ) < ((dropna series).length : ℝ) ^ ((1 : ℝ) / 3) :=
      Real.rpow_pos_of_pos hnpos _
    have hsw : 0 < 3.5 * Real.sqrt ((varQ (dropna series) 1 : ℚ) : ℝ)
        / ((dropna series).length : ℝ) ^ ((1 : ℝ) / 3) := by positivity
    have hrange : 0 < listMax (dropna series) - listMin (dropna series) := by
      refine lt_of_le_of_ne ?_ (Ne.symm hr)
      exact sub_nonneg.mpr (listMin_le (listMax_mem hne))
    have hrangeR : (0 : ℝ)
        < ((listMax (dropna series) - listMin (dropna series) : ℚ) : ℝ) := by
      exact_mod_cast hrange
    rw [if_pos hsw]
    refine ⟨_, rfl, max_eq_right hsq1, max_eq_right hst1,
      one_le_positiveCeil _, one_le_positiveCeil _, one_le_positiveCeil _, ?_,
      fun h => absurd h hr, fun _ => ⟨?_, ?_, ?_⟩⟩
    · dsimp only
      split
      · exact one_le_positiveCeil _
      · exact le_refl 1
    · exact positiveCeil_of_pos (div_pos hrangeR hsw)
    · intro hiqr
      have hiqrR : (0 : ℝ) < ((quantile (dropna series) (3/4)
          - quantile (dropna series) (1/4) : ℚ) : ℝ) := by exact_mod_cast hiqr
      have hfw : 0 < 2 * ((quantile (dropna series) (3/4)
          - quantile (dropna series) (1/4) : ℚ) : ℝ)
          / ((dropna series).length : ℝ) ^ ((1 : ℝ) / 3) := by positivity
      dsimp only
      rw [if_pos hfw]
      exact positiveCeil_of_pos (div_pos hrangeR hfw)
    · intro hiqr0
      have hfw0 : ¬ (0 < 2 * ((quantile (dropna series) (3/4)
          - quantile (dropna series) (1/4) : ℚ) : ℝ)
          / ((dropna series).length : ℝ) ^ ((1 : ℝ) / 3)) := by
        rw [hiqr0]
        push_cast
        norm_num
      dsimp only
      rw [if_neg hfw0]

/-! Concrete evaluations for the histogram bin-count rules -/

lemma hlen100 : vals100.length = 100 := by decide

lemma hsorted100 : sortedVals vals100 = vals100 := by decide

set_option maxRecDepth 100000 in
lemma hmax100 : listMax vals100 = 100 := by decide

set_option maxRecDepth 100000 in
lemma hmin100 : listMin vals100 = 1 := by decide

lemma hsum100 : vals100.sum = 5050 := by norm_num [vals100]

lemma hmean100 : meanQ vals100 = 101/2 := by
  rw [meanQ, hsum100, hlen100]
  norm_num

lemma hsumsq100 : (vals100.map (fun x => (x - meanQ vals100) ^ 2)).sum = 83325 := by
  simp only [hmean100]
  norm_num [vals100]

lemma hvar100 : varQ vals100 1 = 2525/3 := by
  rw [varQ, hsumsq100, hlen100]
  norm_num

lemma hq1_100 : quantile vals100 (1/4) = 103/4 := by
  simp only [quantile, hsorted100, hlen100]
  norm_num [List.getD_cons_succ, List.getD_cons_zero]
  rw [show ⌈(99/4 : ℚ)⌉ = (25 : ℤ) from by norm_num [Int.ceil_eq_iff]]
  norm_num
  rw [show Int.toNat 24 = 24 from rfl, show Int.toNat 25 = 25 from rfl]
  rw [show (vals100[(24:ℕ)]?.getD 0 : ℚ) = 25 from by decide,
    show (vals100[(25:ℕ)]?.getD 0 : ℚ) = 26 from by decide]
  norm_num

lemma hq3_100 : quantile vals100 (3/4) = 301/4 := by
  simp only [quantile, hsorted100, hlen100]
  norm_num [List.getD_cons_succ, List.getD_cons_zero]
  rw [show ⌈(297/4 : ℚ)⌉ = (75 : ℤ) from by norm_num [Int.ceil_eq_iff]]
  norm_num
  rw [show Int.toNat 74 = 74 from rfl, show Int.toNat 75 = 75 from rfl]
  rw [show (vals100[(74:ℕ)]?.getD 0 : ℚ) = 75 from by decide,
    show (vals100[(75:ℕ)]?.getD 0 : ℚ) = 76 from by decide]
  norm_num

lemma sqrt100_ceil : positiveCeil (Real.sqrt 100) = 10 := by
  have h : Real.sqrt 100 = 10 := by
    rw [show (100 : ℝ) = 10 ^ 2 by norm_num]
    exact Real.sqrt_sq (by norm_num)
  rw [positiveCeil, h, show (10 : ℝ) = ((10 : ℤ) : ℝ) by norm_num, Int.ceil_intCast]
  norm_num

lemma sturges100_ceil : positiveCeil (1 + Real.logb 2 100) = 8 := by
  have h1 : ((6 : ℕ) : ℝ) < Real.logb 2 100 := by
    rw [Real.lt_logb_iff_rpow_lt (by norm_num) (by norm_num)]
    rw [Real.rpow_natCast]
    norm_num
  have h2 : Real.logb 2 100 ≤ ((7 : ℕ) : ℝ) := by
    rw [Real.logb_le_iff_le_rpow (by norm_num) (by norm_num)]
    rw [Real.rpow_natCast]
    norm_num
  push_cast at h1 h2
  have hceil : ⌈1 + Real.logb 2 100⌉ = (8 : ℤ) := by
    rw [Int.ceil_eq_iff]
    constructor
    · push_cast
      linarith
    · push_cast
      linarith
  rw [positiveCeil, hceil]
  norm_num

lemma cbrt100_pow : ((100 : ℝ) ^ ((1 : ℝ) / 3)) ^ (3 : ℕ) = 100 := by
  rw [← Real.rpow_natCast ((100 : ℝ) ^ ((1 : ℝ) / 3)) 3,
    ← Real.rpow_mul (by norm_num : (0 : ℝ) ≤ 100)]
  norm_num

lemma cbrt100_pos : (0 : ℝ) < (100 : ℝ) ^ ((1 : ℝ) / 3) :=
  Real.rpow_pos_of_pos (by norm_num) _

lemma cbrt100_lb : (4641 / 1000 : ℝ) < (100 : ℝ) ^ ((1 : ℝ) / 3) := by
  by_contra h
  push_neg at h
  have := pow_le_pow_left (by positivity) h 3
  rw [cbrt100_pow] at this
  norm_num at this

lemma cbrt100_ub : (100 : ℝ) ^ ((1 : ℝ) / 3) < (4642 / 1000 : ℝ) := by
  by_contra h
  push_neg at h
  have := pow_le_pow_left (by norm_num) h 3
  rw [cbrt100_pow] at this
  norm_num at this

lemma std100_sq : Real.sqrt ((2525 / 3 : ℝ)) ^ 2 = 2525 / 3 :=
  Real.sq_sqrt (by norm_num)

lemma std100_pos : (0 : ℝ) < Real.sqrt ((2525 / 3 : ℝ)) :=
  Real.sqrt_pos.mpr (by norm_num)

lemma std100_lb : (2901 / 100 : ℝ) < Real.sqrt ((2525 / 3 : ℝ)) := by
  by_contra h
  push_neg at h
  have := pow_le_pow_left (Real.sqrt_nonneg _) h 2
  rw [std100_sq] at this
  norm_num at this

lemma std100_ub : Real.sqrt ((2525 / 3 : ℝ)) < (2902 / 100 : ℝ) := by
  by_contra h
  push_neg at h
  have := pow_le_pow_left (by norm_num) h 2
  rw [std100_sq] at this
  norm_num at this

lemma scott100_ceil :
    positiveCeil ((99 : ℝ) / (3.5 * Real.sqrt ((2525 / 3 : ℝ))
      / ((100 : ℝ) ^ ((1 : ℝ) / 3)))) = 5 := by
  set s := Real.sqrt ((2525 / 3 : ℝ)) with hs
  set c := (100 : ℝ) ^ ((1 : ℝ) / 3) with hc
  have hw : (0 : ℝ) < 3.5 * s / c := by
    have := std100_pos
    have := cbrt100_pos
    rw [← hs] at *
    positivity
  have hlow : (4 : ℝ) < 99 / (3.5 * s / c) := by
    rw [lt_div_iff hw]
    have h1 : 4 * (3.5 * s / c) = 14 * s / c := by ring
    rw [h1, div_lt_iff cbrt100_pos]
    have hsub : 14 * s < 14 * (2902 / 100) := by
      have := std100_ub
      linarith
    have hcb : 99 * (4641 / 1000) < 99 * c := by
      have := cbrt100_lb
      linarith
    linarith
  have hhigh : 99 / (3.5 * s / c) ≤ 5 := by
    rw [div_le_iff hw]
    have h1 : 5 * (3.5 * s / c) = 17.5 * s / c := by ring
    rw [h1, le_div_iff cbrt100_pos]
    have hsub : 17.5 * (2901 / 100) < 17.5 * s := by
      have := std100_lb
      linarith
    have hcb : 99 * c < 99 * (4642 / 1000) := by
      have := cbrt100_ub
      linarith
    linarith
  have hceil : ⌈(99 : ℝ) / (3.5 * s / c)⌉ = (5 : ℤ) := by
    rw [Int.ceil_eq_iff]
    constructor
    · push_cast
      linarith
    · push_cast
      linarith
  rw [positiveCeil, hceil]
  norm_num

lemma fd100_ceil :
    positiveCeil ((99 : ℝ) / (2 * (99 / 2 : ℝ) / ((100 : ℝ) ^ ((1 : ℝ) / 3)))) = 5 := by
  set c := (100 : ℝ) ^ ((1 : ℝ) / 3) with hc
  have h1 : (99 : ℝ) / (2 * (99 / 2 : ℝ) / c) = c := by
    have := cbrt100_pos
    rw [← hc] at this
    field_simp
  rw [h1]
  have hceil : ⌈c⌉ = (5 : ℤ) := by
    rw [Int.ceil_eq_iff]
    constructor
    · push_cast
      have := cbrt100_lb
      linarith
    · push_cast
      have := cbrt100_ub
      linarith
  rw [positiveCeil, hceil]
  norm_num

lemma sqrt3_ceil : positiveCeil (Real.sqrt 3) = 2 := by
  have h1 : (1 : ℝ) < Real.sqrt 3 := by
    rw [show (3 : ℝ) = 3 from rfl]
    rw [Real.lt_sqrt (by norm_num)]
    norm_num
  have h2 : Real.sqrt 3 ≤ 2 := by
    rw [Real.sqrt_le_left (by norm_num)]
    norm_num
  have hceil : ⌈Real.sqrt 3⌉ = (2 : ℤ) := by
    rw [Int.ceil_eq_iff]
    constructor
    · push_cast
      linarith
    · push_cast
      linarith
  rw [positiveCeil, hceil]
  norm_num

lemma sturges3_ceil : positiveCeil (1 + Real.logb 2 3) = 3 := by
  have h1 : ((1 : ℕ) : ℝ) < Real.logb 2 3 := by
    rw [Real.lt_logb_iff_rpow_lt (by norm_num) (by norm_num)]
    rw [Real.rpow_natCast]
    norm_num
  have h2 : Real.logb 2 3 ≤ ((2 : ℕ) : ℝ) := by
    rw [Real.logb_le_iff_le_rpow (by norm_num) (by norm_num)]
    rw [Real.rpow_natCast]
    norm_num
  push_cast at h1 h2
  have hceil : ⌈1 + Real.logb 2 3⌉ = (3 : ℤ) := by
    rw [Int.ceil_eq_iff]
    constructor
    · push_cast
      linarith
    · push_cast
      linarith
  rw [positiveCeil, hceil]
  norm_num

set_option maxRecDepth 100000 in
lemma hdrop100 : dropna series100 = vals100 := by decide

lemma hbc_100 : histogram_bin_counts series100 = some ⟨10, 8, 5, 5⟩ := by
  simp only [histogram_bin_counts, hdrop100, hlen100]
  rw [if_neg (by norm_num : ¬ (100 : ℕ) = 0)]
  simp only [hmax100, hmin100]
  rw [show (100 : ℚ) - 1 = 99 from by norm_num]
  rw [if_neg (by norm_num : ¬ (99 : ℚ) = 0)]
  simp only [hvar100, hq1_100, hq3_100]
  rw [show (301 / 4 : ℚ) - 103 / 4 = 99 / 2 from by norm_num]
  push_cast
  rw [if_pos (show (0 : ℝ) < 3.5 * Real.sqrt (2525 / 3) / (100 : ℝ) ^ ((1 : ℝ) / 3) by
    have h1 := std100_pos
    have h2 := cbrt100_pos
    positivity)]
  rw [if_pos (show (0 : ℝ) < 2 * (99 / 2) / (100 : ℝ) ^ ((1 : ℝ) / 3) by
    have h2 := cbrt100_pos
    positivity)]
  rw [sqrt100_ceil, sturges100_ceil, scott100_ceil, fd100_ceil]

lemma hbc_555 : histogram_bin_counts series555 = some ⟨2, 3, 1, 1⟩ := by
  have hdrop : dropna series555 = [5, 5, 5] := by decide
  simp only [histogram_bin_counts, hdrop]
  rw [show ([5, 5, 5] : List ℚ).length = 3 from rfl]
  rw [if_neg (by norm_num : ¬ (3 : ℕ) = 0)]
  rw [show listMax [5, 5, 5] = 5 from by decide,
    show listMin [5, 5, 5] = 5 from by decide]
  rw [if_pos (by norm_num : (5 : ℚ) - 5 = 0)]
  push_cast
  rw [sqrt3_ceil, sturges3_ceil]

lemma hdropI : dropna seriesIqr0 = [0, 5, 5, 5, 5, 5, 5, 5, 5, 0] := by decide

lemma hsortI : sortedVals [0, 5, 5, 5, 5, 5, 5, 5, 5, 0]
    = [0, 0, 5, 5, 5, 5, 5, 5, 5, 5] := by decide

lemma hq1I : quantile [0, 5, 5, 5, 5, 5, 5, 5, 5, 0] (1/4) = 5 := by
  simp only [quantile, hsortI]
  norm_num
  rw [show ⌈(9/4 : ℚ)⌉ = (3 : ℤ) from by norm_num [Int.ceil_eq_iff]]
  norm_num [show Int.toNat 2 = 2 from rfl, show Int.toNat 3 = 3 from rfl,
    List.getElem_cons_succ, List.getElem_cons_zero]

lemma hq3I : quantile [0, 5, 5, 5, 5, 5, 5, 5, 5, 0] (3/4) = 5 := by
  simp only [quantile, hsortI]
  norm_num
  rw [show ⌈(27/4 : ℚ)⌉ = (7 : ℤ) from by norm_num [Int.ceil_eq_iff]]
  norm_num [show Int.toNat 6 = 6 from rfl, show Int.toNat 7 = 7 from rfl,
    List.getElem_cons_succ, List.getElem_cons_zero]

/-- C1 counterexample: on the series [0,5,5,5,5,5,5,5,5,0] the data range is
5 but the interquartile range is 0; the source guards the zero width and
returns freedman_diaconis = 1, while the formula of the claim divides the
range by zero (interpreted as 0 under total real division, giving ceil 0 = 0,
and undefined in ordinary arithmetic), so the claim cannot hold as stated. -/
theorem histogram_fd_zero_iqr_counterexample :
    (histogram_bin_counts seriesIqr0).map (fun c => c.freedman_diaconis) = some 1 ∧
    listMax (dropna seriesIqr0) - listMin (dropna seriesIqr0) ≠ 0 ∧
    quantile (dropna seriesIqr0) (3/4) - quantile (dropna seriesIqr0) (1/4) = 0 ∧
    (⌈((listMax (dropna seriesIqr0) - listMin (dropna seriesIqr0) : ℚ) : ℝ)
      / (2 * ((quantile (dropna seriesIqr0) (3/4)
          - quantile (dropna seriesIqr0) (1/4) : ℚ) : ℝ)
        / ((dropna seriesIqr0).length : ℝ) ^ ((1 : ℝ) / 3))⌉ : ℤ) = 0 := by
  have hmaxI : listMax [0, 5, 5, 5, 5, 5, 5, 5, 5, 0] = (5 : ℚ) := by decide
  have hminI : listMin [0, 5, 5, 5, 5, 5, 5, 5, 5, 0] = (0 : ℚ) := by decide
  refine ⟨?_, ?_, ?_, ?_⟩
  · simp only [histogram_bin_counts, hdropI]
    rw [show ([0, 5, 5, 5, 5, 5, 5, 5, 5, 0] : List ℚ).length = 10 from rfl]
    rw [if_neg (by norm_num : ¬ (10 : ℕ) = 0)]
    rw [hmaxI, hminI]
    rw [show (5 : ℚ) - 0 = 5 from by norm_num]
    rw [if_neg (by norm_num : ¬ (5 : ℚ) = 0)]
    simp only [hq1I, hq3I]
    rw [show (5 : ℚ) - 5 = 0 from by norm_num]
    push_cast
    rw [if_neg (show ¬ (0 : ℝ) < 2 * 0 / (10 : ℝ) ^ ((1 : ℝ) / 3) by norm_num)]
    rfl
  · rw [hdropI, hmaxI, hminI]
    norm_num
  · rw [hdropI, hq1I, hq3I]
    norm_num
  · rw [hdropI, hq1I, hq3I]
    rw [show (5 : ℚ) - 5 = 0 from by norm_num]
    push_cast
    norm_num

/-- C1 amended: for every series with at least one non-missing value,
histogram_bin_counts returns four integers each at least 1, with
square_root = ceil(sqrt n) and sturges = ceil(1 + log2 n); when the data
range is zero, scott and freedman_diaconis are 1; when the range is
non-zero, scott = ceil(range / (3.5*std/n^(1/3))) with the sample standard
deviation (divisor n-1), and freedman_diaconis = ceil(range /
(2*IQR/n^(1/3))) when the interquartile range is positive and 1 when it is
zero (the source guards a zero width, which the original formula does not
cover).  On 1..100 the counts are (10, 8, 5, 5) and on [5,5,5] they are
(2, 3, 1, 1). -/
theorem histogram_bin_counts_spec :
    (∀ series : NumSeries, dropna series ≠ [] →
      ∃ c, histogram_bin_counts series = some c ∧
        c.square_root = ⌈Real.sqrt ((dropna series).length : ℝ)⌉ ∧
        c.sturges = ⌈1 + Real.logb 2 ((dropna series).length : ℝ)⌉ ∧
        1 ≤ c.square_root ∧ 1 ≤ c.sturges ∧ 1 ≤ c.scott ∧ 1 ≤ c.freedman_diaconis ∧
        (listMax (dropna series) - listMin (dropna series) = 0 →
          c.scott = 1 ∧ c.freedman_diaconis = 1) ∧
        (listMax (dropna series) - listMin (dropna series) ≠ 0 →
          (c.scott = ⌈((listMax (dropna series) - listMin (dropna series) : ℚ) : ℝ)
            / (3.5 * Real.sqrt ((varQ (dropna series) 1 : ℚ) : ℝ)
              / ((dropna series).length : ℝ) ^ ((1 : ℝ) / 3))⌉) ∧
          (0 < quantile (dropna series) (3/4) - quantile (dropna series) (1/4) →
            c.freedman_diaconis
              = ⌈((listMax (dropna series) - listMin (dropna series) : ℚ) : ℝ)
                / (2 * ((quantile (dropna series) (3/4)
                    - quantile (dropna series) (1/4) : ℚ) : ℝ)
                  / ((dropna series).length : ℝ) ^ ((1 : ℝ) / 3))⌉) ∧
          (quantile (dropna series) (3/4) - quantile (dropna series) (1/4) = 0 →
            c.freedman_diaconis = 1)))
    ∧ histogram_bin_counts series100 = some ⟨10, 8, 5, 5⟩
    ∧ histogram_bin_counts series555 = some ⟨2, 3, 1, 1⟩ :=
  ⟨hbc_general, hbc_100, hbc_555⟩

end PGF
